import Mathlib

set_option autoImplicit false

namespace ReactUtils

-- ==========================================================================
-- Shallow embedding of src/src/utils/GlobalState.js (class GlobalState).
-- Keys, event names and instance names are strings; stored values are a
-- first-order JS value type; mappings are association lists in insertion
-- order, matching the enumeration order of string-keyed JS objects.
-- The helpers callOn / onEntries / safeCall come from generalUtils.js,
-- which is not among the sources; they are modelled from the spec where
-- noted below.
-- ==========================================================================

-- String literals used by the embedding and the concrete test states.
def keyA : String := "a"
def keyB : String := "b"
def keyCount : String := "count"
def keyK : String := "k"
def nameCounter : String := "counter"
def nameAiDesigner : String := "aiDesigner"
def nameGui : String := "gui"
def keyEditors : String := "editors"
def valWax : String := "wax"
def keyMenu : String := "menu"
def valFiles : String := "files"
def nameUnknown : String := "doesNotExist"
def evConfig : String := "config"
def fieldValidators : String := "validators"
def fieldEmitOnStateSet : String := "emitOnStateSet"
def updateSuffix : String := "-update"
def valHello : String := "hello"
def evX : String := "x"

/-- First-order JavaScript runtime values, as stored in an instance's
`stored` mapping.  `vObj` is a plain (non-array) object given by its own
enumerable string-keyed entries in insertion order. -/
inductive JSVal where
  | vUndefined
  | vNull
  | vBool (b : Bool)
  | vNum (n : Int)
  | vStr (s : String)
  | vObj (fields : List (String × JSVal))
  | vArr (elems : List JSVal)

/-- JavaScript truthiness (`!!v`): `undefined`, `null`, `false`, `0` and the
empty string are falsy; every object and array is truthy. -/
def jsTruthy : JSVal → Bool
  | JSVal.vUndefined => false
  | JSVal.vNull => false
  | JSVal.vBool b => b
  | JSVal.vNum n => n != 0
  | JSVal.vStr s => s != ""
  | JSVal.vObj _ => true
  | JSVal.vArr _ => true

/-- Enumeration of own string-keyed entries, as `Object.entries` produces
them: the fields of a plain object, index/character pairs for a string,
index/element pairs for an array, and nothing for other primitives. -/
def jsEntries : JSVal → List (String × JSVal)
  | JSVal.vObj fields => fields
  | JSVal.vStr s => s.toList.enum.map (fun p => (toString p.1, JSVal.vStr (String.singleton p.2)))
  | JSVal.vArr elems => elems.enum.map (fun p => (toString p.1, p.2))
  | _ => []

/-- A JavaScript exception.  The model tracks only that a TypeError was
raised, not its message text. -/
inductive JSError where
  | typeError
  deriving DecidableEq

-- Association-list primitives modelling string-keyed JS objects.  JS keeps
-- string keys in insertion order; assignment to an existing key updates it
-- in place, assignment to a fresh key appends it.

/-- Lookup of the value at a key (`obj[k]`), `none` when the key is absent. -/
def alookup {α : Type} (k : String) : List (String × α) → Option α
  | [] => none
  | (k1, v) :: t => if k1 = k then some v else alookup k t

/-- Assignment `obj[k] = v`: replaces the value at an existing key in place,
appends the pair when the key is absent. -/
def aset {α : Type} (k : String) (v : α) : List (String × α) → List (String × α)
  | [] => [(k, v)]
  | (k1, v1) :: t => if k1 = k then (k1, v) :: t else (k1, v1) :: aset k v t

/-- Key removal (`delete obj[k]`). -/
def adelete {α : Type} (k : String) (l : List (String × α)) : List (String × α) :=
  l.filter (fun e => e.1 != k)

/-- The observable actions a listener callback may perform on its own
instance during dispatch.  Listener bodies are arbitrary JS functions; the
claims under verification exercise callbacks that unsubscribe or subscribe
listeners while an emit is in flight, so those actions are the behavior
language of the model. -/
inductive LBehavior where
  | noop
  | offSelf (ev : String)
  | offId (ev : String) (i : Nat)
  | onAdd (ev : String) (i : Nat)
  deriving DecidableEq

/-- A listener record `{ cb }` as pushed by `on`; `id` stands for the
callback's function identity (`off` removes by `l.cb !== listener`). -/
structure Listener where
  id : Nat
  behavior : LBehavior
  deriving DecidableEq

/-- An argument passed to `emit`.  `inst` is the instance itself (`this`);
`configObj` marks the new config object passed on the `config` event (its
payload, which may contain validator functions, is not tracked in the
trace). -/
inductive Arg where
  | val (v : JSVal)
  | inst
  | configObj

/-- A validator registered under `config.validators`: called with the new
value, its result is interpreted as a boolean allow/deny decision.
Non-function values stored under a validators key behave exactly like an
absent key (`safeCall` falls back), so only function entries are
represented. -/
abbrev ValMap := List (String × (JSVal → JSVal))

/-- A plain-object configuration value, represented by its own key list (for
the `keys(config).length` check and spread merging) together with the values
at the two keys the class reads: `emitOnStateSet` (vUndefined when the key
is absent) and `validators` (`none` when the key is absent). -/
structure ConfigObj where
  keysList : List String
  emitOnStateSet : JSVal
  validators : Option ValMap

/-- The current `#config` of an instance: normally a plain object, but
`setConfig` commits any truthy value returned by a function argument, so a
non-object value can end up stored (`cfgVal`). -/
inductive ConfigState where
  | cfgObj (c : ConfigObj)
  | cfgVal (v : JSVal)

/-- The `emitOnStateSet` binding of `const { emitOnStateSet, validators } =
this.#config`: destructuring a primitive config yields `undefined`. -/
def ConfigState.emitOnStateSetVal : ConfigState → JSVal
  | ConfigState.cfgObj c => c.emitOnStateSet
  | ConfigState.cfgVal _ => JSVal.vUndefined

/-- The `validators` binding of the same destructuring; `none` models the
JS value `undefined`. -/
def ConfigState.validatorsVal : ConfigState → Option ValMap
  | ConfigState.cfgObj c => c.validators
  | ConfigState.cfgVal _ => none

/-- Number of own enumerable keys of the current config
(`keys(this.#config).length`): strings and arrays expose their indices,
other primitives expose nothing. -/
def configKeysLen : ConfigState → Nat
  | ConfigState.cfgObj c => c.keysList.length
  | ConfigState.cfgVal (JSVal.vStr s) => s.length
  | ConfigState.cfgVal (JSVal.vArr l) => l.length
  | ConfigState.cfgVal (JSVal.vObj fields) => fields.length
  | ConfigState.cfgVal _ => 0

/-- Spreading a committed non-object config value (`{ ...this.#config }`):
strings and arrays contribute their index keys, other primitives contribute
nothing; neither carries the two recognized fields. -/
def spreadOfVal : JSVal → ConfigObj
  | JSVal.vStr s => ConfigObj.mk ((List.range s.length).map (fun i => toString i)) JSVal.vUndefined none
  | JSVal.vArr l => ConfigObj.mk ((List.range l.length).map (fun i => toString i)) JSVal.vUndefined none
  | JSVal.vObj fields => ConfigObj.mk (fields.map Prod.fst) JSVal.vUndefined none
  | _ => ConfigObj.mk [] JSVal.vUndefined none

/-- View of the current config as a spreadable object. -/
def spreadObj : ConfigState → ConfigObj
  | ConfigState.cfgObj c => c
  | ConfigState.cfgVal v => spreadOfVal v

/-- Shallow spread merge `{ ...old, ...new }`: existing keys keep their
position and take the new value when the new object carries the key; fresh
keys are appended. -/
def mergeConfig (old new : ConfigObj) : ConfigObj :=
  ConfigObj.mk
    (old.keysList ++ new.keysList.filter (fun k => !(old.keysList.contains k)))
    (if new.keysList.contains fieldEmitOnStateSet then new.emitOnStateSet else old.emitOnStateSet)
    (if new.keysList.contains fieldValidators then new.validators else old.validators)

/-- The initial `#config = {}` of a freshly constructed instance. -/
def freshConfig : ConfigState := ConfigState.cfgObj (ConfigObj.mk [] JSVal.vUndefined none)

/-- One instance of the `GlobalState` class: the private fields `#stored`,
`#events` and `#config`. -/
structure GlobalState where
  stored : List (String × JSVal)
  events : List (String × List Listener)
  config : ConfigState

/-- A fresh `new GlobalState()`. -/
def GlobalState.init : GlobalState := GlobalState.mk [] [] freshConfig

/-- Method `on(eventName, listener, options)`: creates the listener array
when absent (an existing empty array is kept, since `[]` is truthy), then
either replaces the whole array by the new listener (`overwrite` with a
non-empty array) or pushes it.  The non-callable-listener early return is
not modelled: `Listener` only represents callable values.  The returned
unsubscribe closure is not modelled; the new instance state is returned. -/
def GlobalState.on (gs : GlobalState) (eventName : String) (l : Listener) (overwrite : Bool) :
    GlobalState :=
  GlobalState.mk gs.stored
    (aset eventName
      (if overwrite && !((alookup eventName gs.events).getD []).isEmpty
        then [l]
        else ((alookup eventName gs.events).getD []) ++ [l])
      gs.events)
    gs.config

/-- Method `off(eventName, listener)`: when the event has a listener array,
replaces it by a new array filtered by callback identity
(`l => l.cb !== listener`).  The array being replaced is never mutated. -/
def GlobalState.off (gs : GlobalState) (eventName : String) (listenerId : Nat) : GlobalState :=
  match alookup eventName gs.events with
  | none => gs
  | some ls =>
    GlobalState.mk gs.stored
      (aset eventName (ls.filter (fun l => l.id != listenerId)) gs.events) gs.config

/-- Method `clear(eventName)`: deletes the whole listener array. -/
def GlobalState.clear (gs : GlobalState) (eventName : String) : GlobalState :=
  GlobalState.mk gs.stored (adelete eventName gs.events) gs.config

/-- Effect of invoking one listener callback, given the callback's function
identity (`selfId`) for `off(ev, itself)` calls. -/
def runBehavior (st : GlobalState) (selfId : Nat) : LBehavior → GlobalState
  | LBehavior.noop => st
  | LBehavior.offSelf ev => st.off ev selfId
  | LBehavior.offId ev i => st.off ev i
  | LBehavior.onAdd ev i => st.on ev (Listener.mk i LBehavior.noop) false

/-- Iteration of `this.#events[eventName].forEach(listener =>
listener.cb(...args))` over the array captured at the start of the emit.
`forEach` fixes the range before the first callback runs, so elements pushed
by `on` during dispatch are not visited, and `off`/`clear` replace or drop
the array in the event map without mutating the captured array, so removals
during dispatch do not change the captured elements either; iterating the
snapshot list is therefore exact.  Returns the resulting state and the
identities of the invoked callbacks in call order. -/
def runListeners : GlobalState → List Listener → List Arg → GlobalState × List Nat
  | st, [], _ => (st, [])
  | st, l :: rest, args =>
    ((runListeners (runBehavior st l.id l.behavior) rest args).1,
      l.id :: (runListeners (runBehavior st l.id l.behavior) rest args).2)

/-- Method `emit(eventName, ...args)`: if a listener array exists (an empty
array also passes the truthiness check), invoke every callback of the
captured array in registration order. -/
def GlobalState.emit (gs : GlobalState) (eventName : String) (args : List Arg) :
    GlobalState × List Nat :=
  match alookup eventName gs.events with
  | none => (gs, [])
  | some ls => runListeners gs ls args

/-- The `entry` argument of `store`: either a plain JS value or a function
of the instance (`typeof entry` dispatch).  Function arguments are modelled
as pure functions of the instance state. -/
inductive EntryArg where
  | value (v : JSVal)
  | func (f : GlobalState → JSVal)

/-- Modelled from the spec: the resolution `callOn(typeof entry, { object:
() => !isArray(entry) && entry, function: () => entry(this), default: () =>
false })` used by `store` and `define`, with `callOn` (from the absent
generalUtils.js) dispatching on the typeof string and falling back to the
default handler.  A non-array object resolves to itself, an array to
`false`, `null` (whose typeof is `object` and which is not an array) to
`null`, a function to its result, and anything else to `false`. -/
def resolveEntry (gs : GlobalState) : EntryArg → JSVal
  | EntryArg.value (JSVal.vObj fields) => JSVal.vObj fields
  | EntryArg.value (JSVal.vArr _) => JSVal.vBool false
  | EntryArg.value JSVal.vNull => JSVal.vNull
  | EntryArg.value _ => JSVal.vBool false
  | EntryArg.func f => f gs

/-- Modelled from the spec: `safeCall(f, fallback)` from the absent
generalUtils.js returns `f` when it is a function and the fallback
otherwise; per the spec, a key with a registered validator uses that
validator and an absent one is allowed by default. -/
def safeCallVal (f : Option (JSVal → JSVal)) (fallback : JSVal → JSVal) : JSVal → JSVal :=
  match f with
  | some g => g
  | none => fallback

/-- Result of a `store` call: the instance state, the key events emitted
directly by this call (name and arguments, in order), and the exception
raised, if any.  State changes made before a raise persist, as JS mutations
do. -/
structure StoreOut where
  gs : GlobalState
  trace : List (String × List Arg)
  err : Option JSError

/-- The raw read `this.#stored[k]`: `undefined` when the key is unset. -/
def readVal (st : GlobalState) (k : String) : JSVal :=
  (alookup k st.stored).getD JSVal.vUndefined

/-- The per-entry body of `store` (modelled from the spec: `onEntries`, from
the absent generalUtils.js, iterates the entries in order and lets
exceptions propagate).  For each entry, `safeCall(validators[k], () =>
true)(v)` first evaluates the member access `validators[k]`: when the
destructured `validators` is `undefined` — the config has no validators
mapping — that access raises a TypeError, aborting the call before the key
is examined.  Otherwise an allowed value is assigned and, when
`!!emitOnStateSet || emit` holds, the key's event fires with
`(previousValue, newValue, this)`. -/
def storeLoop (validators : Option ValMap) (emitOnStateSet : JSVal) (em : Bool) :
    GlobalState → List (String × JSVal) → StoreOut
  | st, [] => StoreOut.mk st [] none
  | st, (k, v) :: rest =>
    match validators with
    | none => StoreOut.mk st [] (some JSError.typeError)
    | some vs =>
      if jsTruthy (safeCallVal (alookup k vs) (fun _ => JSVal.vBool true) v) then
        if jsTruthy emitOnStateSet || em then
          StoreOut.mk
            (storeLoop (some vs) emitOnStateSet em
              ((GlobalState.emit (GlobalState.mk (aset k v st.stored) st.events st.config) k
                [Arg.val (readVal st k), Arg.val v, Arg.inst]).1) rest).gs
            ((k, [Arg.val (readVal st k), Arg.val v, Arg.inst]) ::
              (storeLoop (some vs) emitOnStateSet em
                ((GlobalState.emit (GlobalState.mk (aset k v st.stored) st.events st.config) k
                  [Arg.val (readVal st k), Arg.val v, Arg.inst]).1) rest).trace)
            (storeLoop (some vs) emitOnStateSet em
              ((GlobalState.emit (GlobalState.mk (aset k v st.stored) st.events st.config) k
                [Arg.val (readVal st k), Arg.val v, Arg.inst]).1) rest).err
        else
          storeLoop (some vs) emitOnStateSet em
            (GlobalState.mk (aset k v st.stored) st.events st.config) rest
      else storeLoop (some vs) emitOnStateSet em st rest

/-- Method `store(entry, emit = true)`: destructure the config, resolve the
entry, and either iterate its entries or warn (`console.warn`) and return
the instance unchanged when the resolved value is falsy. -/
def GlobalState.store (gs : GlobalState) (entry : EntryArg) (em : Bool) : StoreOut :=
  if jsTruthy (resolveEntry gs entry) then
    storeLoop gs.config.validatorsVal gs.config.emitOnStateSetVal em gs
      (jsEntries (resolveEntry gs entry))
  else StoreOut.mk gs [] none

/-- Method `read(key)`: `key ? this.#stored[key] : this.#stored` — a falsy
key (absent or the empty string) returns the whole stored mapping. -/
def GlobalState.read (gs : GlobalState) (key : String) : JSVal :=
  if key = "" then JSVal.vObj gs.stored else readVal gs key

/-- The body of `update(states)`: assign each entry and emit
`` `${k}-update` `` with the new value as only argument, consulting neither
validators nor `emitOnStateSet` (modelled from the spec: `onEntries`
iterates the entries in order). -/
def updateLoop : GlobalState → List (String × JSVal) → GlobalState × List (String × List Arg)
  | st, [] => (st, [])
  | st, (k, v) :: rest =>
    ((updateLoop ((GlobalState.emit (GlobalState.mk (aset k v st.stored) st.events st.config)
        (k ++ updateSuffix) [Arg.val v]).1) rest).1,
      (k ++ updateSuffix, [Arg.val v]) ::
        (updateLoop ((GlobalState.emit (GlobalState.mk (aset k v st.stored) st.events st.config)
          (k ++ updateSuffix) [Arg.val v]).1) rest).2)

/-- Method `update(states)`, taking the entries of the argument object. -/
def GlobalState.update (gs : GlobalState) (states : List (String × JSVal)) :
    GlobalState × List (String × List Arg) :=
  updateLoop gs states

/-- A value of a `define` entry, destructured as `const { state, get, set,
...rest } = v`.  `getF` and `setF` model the optional accessor functions of
the descriptor (a setter returns a JS value, checked for `safe: true`);
`restHasValue`/`restHasWritable` record data-descriptor flags carried by the
spread rest.  None of these is ever invoked: see `defineLoop`. -/
structure DefDescriptor where
  state : JSVal
  getF : Option (GlobalState → String → JSVal → JSVal)
  setF : Option (String → JSVal → JSVal → JSVal)
  restHasValue : Bool
  restHasWritable : Bool

/-- The `entry` argument of `define`, mirroring the `callOn` typeof dispatch
of `store` (see `resolveEntry`): a plain object of descriptors, an array,
`null`, a function of the instance (`none` models a falsy return value; a
truthy non-object return enumerates no entries and is represented by
`some []`), or any other primitive. -/
inductive DefineArg where
  | objD (entries : List (String × DefDescriptor))
  | arrD
  | nullD
  | funcD (f : GlobalState → Option (List (String × DefDescriptor)))
  | otherD

/-- Resolution of the `define` entry: `none` when the resolved value is
falsy (array, null, other primitive, falsy function result). -/
def resolveDefine (gs : GlobalState) : DefineArg → Option (List (String × DefDescriptor))
  | DefineArg.objD entries => some entries
  | DefineArg.arrD => none
  | DefineArg.nullD => none
  | DefineArg.funcD f => f gs
  | DefineArg.otherD => none

/-- The descriptor validation performed by `Object.defineProperty`
(ECMAScript ToPropertyDescriptor): a descriptor carrying an accessor field
(`get` or `set`) together with a data field (`value` or `writable`) raises a
TypeError before any property is installed. -/
def definePropertyErr (hasValue hasWritable hasGet hasSet : Bool) : Option JSError :=
  if (hasValue || hasWritable) && (hasGet || hasSet) then some JSError.typeError else none

/-- The per-entry body of `define`: every call builds the descriptor
`{ value: state, get: () => ..., set: newValue => ..., enumerable: true,
configurable: true, ...rest }`, whose `value`, `get` and `set` fields are
all unconditionally present, so `defineProperty` raises a TypeError on
every entry and the exception aborts the iteration; the success branch of
the match is unreachable and keeps the loop shape of `onEntries`. -/
def defineLoop : GlobalState → List (String × DefDescriptor) → GlobalState × Option JSError
  | st, [] => (st, none)
  | st, (_, d) :: rest =>
    match definePropertyErr true d.restHasWritable true true with
    | some e => (st, some e)
    | none => defineLoop st rest

/-- Method `define(entry)`: resolve the entry as `store` does; a falsy
resolved value returns the instance unchanged, otherwise iterate the
descriptor entries. -/
def GlobalState.define (gs : GlobalState) (entry : DefineArg) : GlobalState × Option JSError :=
  match resolveDefine gs entry with
  | none => (gs, none)
  | some entries => defineLoop gs entries

/-- The return value of a function passed to `setConfig`: either a plain
object (represented as `ConfigObj`) or any other JS value, which the code
checks only for truthiness. -/
inductive ConfigRet where
  | robj (c : ConfigObj)
  | rval (v : JSVal)

/-- The `config` argument of `setConfig`, under the same `callOn` typeof
dispatch: a plain non-array object, an array, `null`, a function of the
instance, or any other primitive. -/
inductive ConfigArg where
  | obj (c : ConfigObj)
  | arr
  | nullC
  | func (f : GlobalState → ConfigRet)
  | other

/-- Outcome of resolving the `config` argument and testing `!newConfig`. -/
inductive ResolvedConfig where
  | robj (c : ConfigObj)
  | rvalTruthy (v : JSVal)
  | falsy

/-- Resolution of `setConfig`'s argument: a non-array object passes through,
an array yields `false`, `null` stays `null` (falsy), other primitives hit
the default handler (`false`), and a function's return value is kept
whenever it is truthy — plain objects always are, and any other truthy
value also passes the `!newConfig` check. -/
def resolveConfig (gs : GlobalState) : ConfigArg → ResolvedConfig
  | ConfigArg.obj c => ResolvedConfig.robj c
  | ConfigArg.arr => ResolvedConfig.falsy
  | ConfigArg.nullC => ResolvedConfig.falsy
  | ConfigArg.other => ResolvedConfig.falsy
  | ConfigArg.func f =>
    match f gs with
    | ConfigRet.robj c => ResolvedConfig.robj c
    | ConfigRet.rval v => if jsTruthy v then ResolvedConfig.rvalTruthy v else ResolvedConfig.falsy

/-- Method `setConfig(config, update)`: warn and return unchanged when a
config with keys exists and `update` is not passed, or when the resolved
value is falsy; otherwise commit the resolved value (replacing, or spread
merging under `update`) and emit the `config` event with the new config and
the instance.  Returns the instance state and the events emitted directly
by the call. -/
def GlobalState.setConfig (gs : GlobalState) (config : ConfigArg) (update : Bool) :
    GlobalState × List (String × List Arg) :=
  if (configKeysLen gs.config != 0) && !update then (gs, [])
  else
    match resolveConfig gs config with
    | ResolvedConfig.falsy => (gs, [])
    | ResolvedConfig.robj c =>
      ((GlobalState.emit
          (GlobalState.mk gs.stored gs.events
            (if update then ConfigState.cfgObj (mergeConfig (spreadObj gs.config) c)
              else ConfigState.cfgObj c))
          evConfig [Arg.configObj, Arg.inst]).1,
        [(evConfig, [Arg.configObj, Arg.inst])])
    | ResolvedConfig.rvalTruthy v =>
      ((GlobalState.emit
          (GlobalState.mk gs.stored gs.events
            (if update then ConfigState.cfgObj (mergeConfig (spreadObj gs.config) (spreadOfVal v))
              else ConfigState.cfgVal v))
          evConfig [Arg.val v, Arg.inst]).1,
        [(evConfig, [Arg.val v, Arg.inst])])

/-- The process-wide static registry `GlobalState.#instances`, in
registration order. -/
structure Registry where
  instances : List (String × GlobalState)

/-- The body of `GlobalState.create(instances)` (modelled from the spec:
`onEntries` iterates the definitions in order and lets exceptions
propagate).  A name that already exists is skipped with a warning; otherwise
a fresh instance is constructed and populated through `store` before being
written into the registry, so an exception raised by `store` leaves that
name unregistered and aborts the remaining definitions, while names
registered by earlier iterations persist. -/
def createLoop : Registry → List (String × EntryArg) → Registry × Option JSError
  | reg, [] => (reg, none)
  | reg, (name, states) :: rest =>
    match alookup name reg.instances with
    | some _ => createLoop reg rest
    | none =>
      match (GlobalState.init.store states true).err with
      | some e => (reg, some e)
      | none =>
        createLoop (Registry.mk (reg.instances ++ [(name, (GlobalState.init.store states true).gs)]))
          rest

/-- Static method `GlobalState.create(instances)`: register each definition
whose name is free.  Returns the registry and the exception propagated by a
failing `store`, if any. -/
def GlobalState.create (reg : Registry) (defs : List (String × EntryArg)) :
    Registry × Option JSError :=
  createLoop reg defs

/-- Result of `GlobalState.get(name)`: the registered instance, or the empty
placeholder object `{}` returned (after a warning) for an unknown name. -/
inductive GetResult where
  | found (g : GlobalState)
  | placeholder

/-- Static method `GlobalState.get(name)`. -/
def GlobalState.get (reg : Registry) (name : String) : GetResult :=
  match alookup name reg.instances with
  | some g => GetResult.found g
  | none => GetResult.placeholder

/-- Static getter `GlobalState.statesList`: the registered names in order. -/
def GlobalState.statesList (reg : Registry) : List String :=
  reg.instances.map Prod.fst

/-- Outcome of the member call `result.store(...)` on the value returned by
`GlobalState.get`: a registered instance runs the method; on the `{}`
placeholder the property access yields `undefined` and calling it raises a
TypeError. -/
inductive CallResult where
  | ok (out : StoreOut)
  | notAFunction (e : JSError)

/-- The call `GlobalState.get(name).store(entry, emit)`. -/
def GetResult.callStore : GetResult → EntryArg → Bool → CallResult
  | GetResult.found g, entry, em => CallResult.ok (g.store entry em)
  | GetResult.placeholder, _, _ => CallResult.notAFunction JSError.typeError

/-- The module-load side effect at the bottom of GlobalState.js:
`GlobalState.create({ aiDesigner: {}, gui: { editors: 'wax', menu: 'files' } })`
executed against an empty registry when the module is first imported. -/
def moduleLoad : Registry × Option JSError :=
  GlobalState.create (Registry.mk [])
    [(nameAiDesigner, EntryArg.value (JSVal.vObj [])),
      (nameGui, EntryArg.value (JSVal.vObj
        [(keyEditors, JSVal.vStr valWax), (keyMenu, JSVal.vStr valFiles)]))]

-- Concrete fixtures used by the witness and counterexample theorems.

/-- A validator that rejects every value (used for key `a`). -/
def faW : JSVal → JSVal := fun _ => JSVal.vBool false

/-- A validator that accepts every value (used for key `b`). -/
def fbW : JSVal → JSVal := fun _ => JSVal.vBool true

/-- A validators mapping rejecting `a` and accepting `b`. -/
def vsW : ValMap := [(keyA, faW), (keyB, fbW)]

/-- A config object carrying only `vsW` as validators. -/
def cW : ConfigObj := ConfigObj.mk [fieldValidators] JSVal.vUndefined (some vsW)

/-- An instance with `a` stored and the `vsW` validators configured. -/
def gsW : GlobalState := GlobalState.mk [(keyA, JSVal.vNum 1)] [] (ConfigState.cfgObj cW)

/-- An instance whose config registers an accept-all validator for `count`. -/
def gsE : GlobalState :=
  GlobalState.mk [] []
    (ConfigState.cfgObj (ConfigObj.mk [fieldValidators] JSVal.vUndefined
      (some [(keyCount, fbW)])))

/-- An instance with two listeners on event `x`; the first unsubscribes
itself during its own invocation. -/
def gsX : GlobalState :=
  GlobalState.mk [] [(evX, [Listener.mk 1 (LBehavior.offSelf evX), Listener.mk 2 LBehavior.noop])]
    freshConfig

/-- The registration definitions `{ counter: { count: 0 } }`. -/
def counterDefs : List (String × EntryArg) :=
  [(nameCounter, EntryArg.value (JSVal.vObj [(keyCount, JSVal.vNum 0)]))]

/-- A registry holding one instance named `counter` (registered with an
empty initial state, the only initial state a fresh instance accepts). -/
def regWithCounter : Registry :=
  (GlobalState.create (Registry.mk []) [(nameCounter, EntryArg.value (JSVal.vObj []))]).1

/-- An instance configured with an empty validators mapping, so every key is
allowed by the `safeCall` default. -/
def gsM : GlobalState :=
  GlobalState.mk [] []
    (ConfigState.cfgObj (ConfigObj.mk [fieldValidators] JSVal.vUndefined (some [])))

/-- Statement of the amended claim C8: the shapes of the `config` argument
whose resolved value is falsy under the typeof dispatch — an array, `null`,
a non-object non-function primitive, or a function returning a falsy value.
Only for these does `setConfig` degrade to a warning; a function returning a
truthy non-object passes the `!newConfig` check and is committed. -/
def configResolvedFalsy (gs : GlobalState) : ConfigArg → Prop
  | ConfigArg.obj _ => False
  | ConfigArg.arr => True
  | ConfigArg.nullC => True
  | ConfigArg.other => True
  | ConfigArg.func f =>
    match f gs with
    | ConfigRet.robj _ => False
    | ConfigRet.rval v => jsTruthy v = false

-- ==========================================================================
-- Lemmas about the association-list primitives.
-- ==========================================================================

theorem alookup_aset_self {α : Type} (k : String) (v : α) :
    ∀ l : List (String × α), alookup k (aset k v l) = some v := by
  intro l
  induction l with
  | nil => simp [aset, alookup]
  | cons hd t ih =>
    obtain ⟨k1, v1⟩ := hd
    by_cases h : k1 = k
    · simp [aset, alookup, h]
    · simp [aset, alookup, h, ih]

theorem alookup_aset_ne {α : Type} (k1 k : String) (v : α) (hne : k1 ≠ k) :
    ∀ l : List (String × α), alookup k1 (aset k v l) = alookup k1 l := by
  have hne2 : k ≠ k1 := fun h => hne h.symm
  intro l
  induction l with
  | nil => simp [aset, alookup, hne2]
  | cons hd t ih =>
    obtain ⟨k0, v0⟩ := hd
    by_cases h : k0 = k
    · subst h
      simp [aset, alookup, hne2]
    · by_cases h1 : k0 = k1
      · simp [aset, alookup, h, h1, hne]
      · simp [aset, alookup, h, h1, ih]

theorem filter_fst_nil {β : Type} (k : String) :
    ∀ l : List (String × β), k ∉ l.map Prod.fst → l.filter (fun e => e.1 == k) = [] := by
  intro l
  induction l with
  | nil => simp
  | cons hd t ih =>
    intro hk
    obtain ⟨k0, v0⟩ := hd
    simp only [List.map_cons, List.mem_cons] at hk
    push_neg at hk
    have hne : (k0 == k) = false := beq_eq_false_iff_ne.mpr (fun h => hk.1 h.symm)
    simp [List.filter, hne, ih hk.2]

theorem filter_fst_singleton {β : Type} (k : String) (v : β) :
    ∀ l : List (String × β), (l.map Prod.fst).Nodup → (k, v) ∈ l →
      l.filter (fun e => e.1 == k) = [(k, v)] := by
  intro l
  induction l with
  | nil => simp
  | cons hd t ih =>
    intro hnd hmem
    obtain ⟨k0, v0⟩ := hd
    simp only [List.map_cons, List.nodup_cons] at hnd
    rcases List.mem_cons.mp hmem with heq | htl
    · obtain ⟨hk, hv⟩ := Prod.mk.injEq .. ▸ heq.symm
      subst hk
      have : (k0 == k0) = true := beq_self_eq_true k0
      simp [List.filter, this, hv.symm, filter_fst_nil k0 t hnd.1]
    · have hk0 : k0 ≠ k := by
        intro h
        exact hnd.1 (h ▸ List.mem_map_of_mem Prod.fst htl)
      have hne : (k0 == k) = false := beq_eq_false_iff_ne.mpr hk0
      simp [List.filter, hne, ih hnd.2 htl]

theorem string_append_right_inj (s k1 k2 : String) (h : k1 ++ s = k2 ++ s) : k1 = k2 := by
  apply String.ext
  have hd : k1.data ++ s.data = k2.data ++ s.data := by
    have := congrArg String.data h
    simpa [String.data_append] using this
  exact List.append_cancel_right hd

-- ==========================================================================
-- Lemmas about listener dispatch: the event-bus operations never touch the
-- stored mapping, and the in-flight snapshot is dispatched in full.
-- ==========================================================================

theorem off_stored (gs : GlobalState) (ev : String) (i : Nat) :
    (GlobalState.off gs ev i).stored = gs.stored := by
  unfold GlobalState.off
  split <;> rfl

theorem runBehavior_stored (st : GlobalState) (i : Nat) :
    ∀ b : LBehavior, (runBehavior st i b).stored = st.stored := by
  intro b
  cases b <;> simp [runBehavior, GlobalState.on, off_stored]

theorem runListeners_fst_stored :
    ∀ (ls : List Listener) (st : GlobalState) (args : List Arg),
      ((runListeners st ls args).1).stored = st.stored := by
  intro ls
  induction ls with
  | nil => intro st args; rfl
  | cons l rest ih =>
    intro st args
    simp [runListeners, ih, runBehavior_stored]

theorem emit_fst_stored (st : GlobalState) (ev : String) (args : List Arg) :
    ((GlobalState.emit st ev args).1).stored = st.stored := by
  unfold GlobalState.emit
  split
  · rfl
  · apply runListeners_fst_stored

theorem runListeners_snd :
    ∀ (ls : List Listener) (st : GlobalState) (args : List Arg),
      (runListeners st ls args).2 = ls.map Listener.id := by
  intro ls
  induction ls with
  | nil => intro st args; rfl
  | cons l rest ih =>
    intro st args
    simp [runListeners, ih]

-- ==========================================================================
-- Equation lemmas for the store loop.
-- ==========================================================================

theorem storeLoop_nil (vv : Option ValMap) (eoss : JSVal) (em : Bool) (st : GlobalState) :
    storeLoop vv eoss em st [] = StoreOut.mk st [] none := rfl

theorem storeLoop_cons_skip (vs : ValMap) (eoss : JSVal) (em : Bool) (st : GlobalState)
    (k : String) (v : JSVal) (rest : List (String × JSVal))
    (h : jsTruthy (safeCallVal (alookup k vs) (fun _ => JSVal.vBool true) v) = false) :
    storeLoop (some vs) eoss em st ((k, v) :: rest) = storeLoop (some vs) eoss em st rest := by
  simp [storeLoop, h]

theorem storeLoop_cons_noemit (vs : ValMap) (eoss : JSVal) (em : Bool) (st : GlobalState)
    (k : String) (v : JSVal) (rest : List (String × JSVal))
    (h1 : jsTruthy (safeCallVal (alookup k vs) (fun _ => JSVal.vBool true) v) = true)
    (h2 : (jsTruthy eoss || em) = false) :
    storeLoop (some vs) eoss em st ((k, v) :: rest)
      = storeLoop (some vs) eoss em (GlobalState.mk (aset k v st.stored) st.events st.config)
          rest := by
  simp [storeLoop, h1, h2]

theorem storeLoop_cons_emit (vs : ValMap) (eoss : JSVal) (em : Bool) (st : GlobalState)
    (k : String) (v : JSVal) (rest : List (String × JSVal))
    (h1 : jsTruthy (safeCallVal (alookup k vs) (fun _ => JSVal.vBool true) v) = true)
    (h2 : (jsTruthy eoss || em) = true) :
    storeLoop (some vs) eoss em st ((k, v) :: rest)
      = StoreOut.mk
          (storeLoop (some vs) eoss em
            ((GlobalState.emit (GlobalState.mk (aset k v st.stored) st.events st.config) k
              [Arg.val (readVal st k), Arg.val v, Arg.inst]).1) rest).gs
          ((k, [Arg.val (readVal st k), Arg.val v, Arg.inst]) ::
            (storeLoop (some vs) eoss em
              ((GlobalState.emit (GlobalState.mk (aset k v st.stored) st.events st.config) k
                [Arg.val (readVal st k), Arg.val v, Arg.inst]).1) rest).trace)
          (storeLoop (some vs) eoss em
            ((GlobalState.emit (GlobalState.mk (aset k v st.stored) st.events st.config) k
              [Arg.val (readVal st k), Arg.val v, Arg.inst]).1) rest).err := by
  simp [storeLoop, h1, h2]

theorem store_eq_of_resolveObj (gs : GlobalState) (entry : EntryArg) (em : Bool)
    (states : List (String × JSVal)) (hres : resolveEntry gs entry = JSVal.vObj states) :
    gs.store entry em
      = storeLoop gs.config.validatorsVal gs.config.emitOnStateSetVal em gs states := by
  simp [GlobalState.store, hres, jsTruthy, jsEntries]

theorem storeLoop_trace_noemit (vv : Option ValMap) (eoss : JSVal) (em : Bool)
    (h : (jsTruthy eoss || em) = false) :
    ∀ (l : List (String × JSVal)) (st : GlobalState), (storeLoop vv eoss em st l).trace = [] := by
  intro l
  induction l with
  | nil => intro st; rfl
  | cons hd rest ih =>
    intro st
    obtain ⟨k, v⟩ := hd
    cases vv with
    | none => rfl
    | some vs =>
      cases hall : jsTruthy (safeCallVal (alookup k vs) (fun _ => JSVal.vBool true) v) with
      | true =>
        rw [storeLoop_cons_noemit vs eoss em st k v rest hall h]
        exact ih _
      | false =>
        rw [storeLoop_cons_skip vs eoss em st k v rest hall]
        exact ih _

theorem readVal_of_stored_aset (st2 st : GlobalState) (k1 k : String) (v : JSVal)
    (h2 : st2.stored = aset k v st.stored) (hne : k1 ≠ k) :
    readVal st2 k1 = readVal st k1 := by
  unfold readVal
  rw [h2, alookup_aset_ne k1 k v hne]

theorem storeLoop_trace_char (vs : ValMap) (eoss : JSVal) (em : Bool)
    (hse : (jsTruthy eoss || em) = true) :
    ∀ (l : List (String × JSVal)) (st : GlobalState), (l.map Prod.fst).Nodup →
      (storeLoop (some vs) eoss em st l).trace
        = (l.filter (fun kv =>
            jsTruthy (safeCallVal (alookup kv.1 vs) (fun _ => JSVal.vBool true) kv.2))).map
            (fun kv => (kv.1, [Arg.val (readVal st kv.1), Arg.val kv.2, Arg.inst])) := by
  intro l
  induction l with
  | nil => intro st _; rfl
  | cons hd rest ih =>
    intro st hnd
    obtain ⟨k, v⟩ := hd
    simp only [List.map_cons, List.nodup_cons] at hnd
    cases hall : jsTruthy (safeCallVal (alookup k vs) (fun _ => JSVal.vBool true) v) with
    | true =>
      rw [storeLoop_cons_emit vs eoss em st k v rest hall hse]
      simp only [List.filter_cons, hall, if_true, List.map_cons]
      have hst2 : ((GlobalState.emit (GlobalState.mk (aset k v st.stored) st.events st.config) k
          [Arg.val (readVal st k), Arg.val v, Arg.inst]).1).stored = aset k v st.stored :=
        emit_fst_stored _ _ _
      rw [ih _ hnd.2]
      apply congrArg (List.cons _)
      apply List.map_congr_left
      intro kv hkv
      have hne : kv.1 ≠ k := by
        intro hk
        exact hnd.1 (hk ▸ List.mem_map_of_mem Prod.fst (List.mem_of_mem_filter hkv))
      rw [readVal_of_stored_aset _ st kv.1 k v hst2 hne]
    | false =>
      rw [storeLoop_cons_skip vs eoss em st k v rest hall]
      rw [ih st hnd.2]
      simp only [List.filter_cons, hall]
      rfl

theorem updateLoop_trace :
    ∀ (l : List (String × JSVal)) (st : GlobalState),
      (updateLoop st l).2 = l.map (fun kv => (kv.1 ++ updateSuffix, [Arg.val kv.2])) := by
  intro l
  induction l with
  | nil => intro st; rfl
  | cons hd rest ih =>
    intro st
    obtain ⟨k, v⟩ := hd
    simp [updateLoop, ih]

theorem updateLoop_stored :
    ∀ (l : List (String × JSVal)) (st : GlobalState),
      ((updateLoop st l).1).stored = l.foldl (fun s kv => aset kv.1 kv.2 s) st.stored := by
  intro l
  induction l with
  | nil => intro st; rfl
  | cons hd rest ih =>
    intro st
    obtain ⟨k, v⟩ := hd
    have hst2 : ((GlobalState.emit (GlobalState.mk (aset k v st.stored) st.events st.config)
        (k ++ updateSuffix) [Arg.val v]).1).stored = aset k v st.stored :=
      emit_fst_stored _ _ _
    simp only [updateLoop, List.foldl_cons]
    rw [ih, hst2]

theorem alookup_foldl_not_mem {α : Type} (k : String) :
    ∀ (l : List (String × α)) (s : List (String × α)), k ∉ l.map Prod.fst →
      alookup k (l.foldl (fun s kv => aset kv.1 kv.2 s) s) = alookup k s := by
  intro l
  induction l with
  | nil => intro s _; rfl
  | cons hd rest ih =>
    intro s hk
    obtain ⟨k0, v0⟩ := hd
    simp only [List.map_cons, List.mem_cons] at hk
    push_neg at hk
    simp only [List.foldl_cons]
    rw [ih _ hk.2, alookup_aset_ne k k0 v0 hk.1]

theorem alookup_foldl_mem {α : Type} (k : String) (v : α) :
    ∀ (l : List (String × α)) (s : List (String × α)), (l.map Prod.fst).Nodup → (k, v) ∈ l →
      alookup k (l.foldl (fun s kv => aset kv.1 kv.2 s) s) = some v := by
  intro l
  induction l with
  | nil => intro s _ hmem; exact absurd hmem (List.not_mem_nil _)
  | cons hd rest ih =>
    intro s hnd hmem
    obtain ⟨k0, v0⟩ := hd
    simp only [List.map_cons, List.nodup_cons] at hnd
    simp only [List.foldl_cons]
    rcases List.mem_cons.mp hmem with heq | htl
    · obtain ⟨hk, hv⟩ := Prod.mk.injEq .. ▸ heq.symm
      subst hk
      subst hv
      rw [alookup_foldl_not_mem k0 rest _ hnd.1, alookup_aset_self]
    · exact ih _ hnd.2 htl

-- ==========================================================================
-- Claim theorems.
-- ==========================================================================

/-- C1: the claim says a key with no registered validator is allowed by
default, including when the configuration defines no validators mapping at
all.  The second part fails on the code: a fresh instance has `#config =
{}`, the destructured `validators` is `undefined`, and the member access
`validators[k]` inside `safeCall(validators[k], () => true)` raises a
TypeError on the first key, so `store({count: 1})` raises, commits nothing
and emits nothing (first three conjuncts).  With a validators mapping
present but no entry for the key, the default-allow half of the claim does
hold (last two conjuncts). -/
theorem store_no_validators_mapping_raises :
    (GlobalState.init.store (EntryArg.value (JSVal.vObj [(keyCount, JSVal.vNum 1)])) true).err
        = some JSError.typeError
    ∧ (GlobalState.init.store (EntryArg.value (JSVal.vObj [(keyCount, JSVal.vNum 1)])) true).gs.stored
        = []
    ∧ (GlobalState.init.store (EntryArg.value (JSVal.vObj [(keyCount, JSVal.vNum 1)])) true).trace
        = []
    ∧ (gsM.store (EntryArg.value (JSVal.vObj [(keyCount, JSVal.vNum 1)])) true).err = none
    ∧ readVal (gsM.store (EntryArg.value (JSVal.vObj [(keyCount, JSVal.vNum 1)])) true).gs keyCount
        = JSVal.vNum 1 :=
  ⟨rfl, rfl, rfl, rfl, rfl⟩

/-- C2 counterexample: `getInstance('doesNotExist')` on a registry holding
only `counter` returns the empty placeholder `{}`, and the member call
`.store({a: 1})` on that placeholder raises a TypeError (the property
access yields `undefined`), contradicting the claim that the call does not
throw; the registered names are untouched. -/
theorem get_unknown_store_raises_cx :
    GlobalState.get regWithCounter nameUnknown = GetResult.placeholder
    ∧ GetResult.callStore (GlobalState.get regWithCounter nameUnknown)
        (EntryArg.value (JSVal.vObj [(keyA, JSVal.vNum 1)])) true
        = CallResult.notAFunction JSError.typeError
    ∧ GlobalState.statesList regWithCounter = [nameCounter] :=
  ⟨rfl, rfl, rfl⟩

/-- C2 amended: for every unregistered name, `getInstance` warns and returns
the empty placeholder object; the lookup itself does not fail and mutates no
registered instance, but a subsequent `.store(...)` call on the placeholder
raises a TypeError instead of being a no-op. -/
theorem get_unknown_placeholder (reg : Registry) (name : String) (entry : EntryArg) (em : Bool)
    (h : alookup name reg.instances = none) :
    GlobalState.get reg name = GetResult.placeholder
    ∧ GetResult.callStore (GlobalState.get reg name) entry em
        = CallResult.notAFunction JSError.typeError := by
  constructor
  · simp [GlobalState.get, h]
  · simp [GlobalState.get, h, GetResult.callStore]

/-- Witness for the amended C2 theorem at the concrete registry holding only
`counter` and the unknown name `doesNotExist`. -/
theorem get_unknown_placeholder_witness :
    GlobalState.get regWithCounter nameUnknown = GetResult.placeholder
    ∧ GetResult.callStore (GlobalState.get regWithCounter nameUnknown)
        (EntryArg.value (JSVal.vObj [(keyB, JSVal.vNum 2)])) false
        = CallResult.notAFunction JSError.typeError :=
  get_unknown_placeholder regWithCounter nameUnknown
    (EntryArg.value (JSVal.vObj [(keyB, JSVal.vNum 2)])) false rfl

/-- C3: the claimed computed-property round trip can never begin: `define`
always passes `value: state` together with the `get`/`set` accessor arrows
to `Object.defineProperty`, whose descriptor validation rejects accessor
and data fields in combination, so defining any key — in particular
`{state: s0, set: (k, v) => ({state: v, safe: true})}` — raises a TypeError
and installs nothing, for every instance and every descriptor list. -/
theorem define_always_raises (gs : GlobalState) (k : String) (d : DefDescriptor)
    (rest : List (String × DefDescriptor)) :
    gs.define (DefineArg.objD ((k, d) :: rest)) = (gs, some JSError.typeError) := rfl

/-- C4: partial application of a batched store: with a validators mapping
whose validator for `a` rejects the new value and whose validator for `b`
accepts it, storing `{a, b}` raises nothing, commits `b`, leaves `a` at its
previous value and emits no event named `a`.  The keys are required to be
non-empty strings so that `read` is the keyed read. -/
theorem store_partial_apply (gs : GlobalState) (c : ConfigObj) (vs : ValMap)
    (a b : String) (va vb : JSVal) (fa fb : JSVal → JSVal) (em : Bool)
    (hcfg : gs.config = ConfigState.cfgObj c) (hvs : c.validators = some vs)
    (hab : a ≠ b) (hane : a ≠ "") (hbne : b ≠ "")
    (hfa : alookup a vs = some fa) (hfa2 : jsTruthy (fa va) = false)
    (hfb : alookup b vs = some fb) (hfb2 : jsTruthy (fb vb) = true) :
    (gs.store (EntryArg.value (JSVal.vObj [(a, va), (b, vb)])) em).err = none
    ∧ (gs.store (EntryArg.value (JSVal.vObj [(a, va), (b, vb)])) em).gs.read b = vb
    ∧ (gs.store (EntryArg.value (JSVal.vObj [(a, va), (b, vb)])) em).gs.read a = gs.read a
    ∧ ((gs.store (EntryArg.value (JSVal.vObj [(a, va), (b, vb)])) em).trace).filter
        (fun e => e.1 == a) = [] := by
  have hres : resolveEntry gs (EntryArg.value (JSVal.vObj [(a, va), (b, vb)]))
      = JSVal.vObj [(a, va), (b, vb)] := rfl
  rw [store_eq_of_resolveObj gs _ em _ hres]
  have hv : gs.config.validatorsVal = some vs := by
    rw [hcfg]
    simp [ConfigState.validatorsVal, hvs]
  rw [hv]
  have hskipA : jsTruthy (safeCallVal (alookup a vs) (fun _ => JSVal.vBool true) va) = false := by
    rw [hfa]
    exact hfa2
  rw [storeLoop_cons_skip vs _ em gs a va _ hskipA]
  have hcommitB : jsTruthy (safeCallVal (alookup b vs) (fun _ => JSVal.vBool true) vb) = true := by
    rw [hfb]
    exact hfb2
  have hba : (b == a) = false := beq_eq_false_iff_ne.mpr (fun h => hab h.symm)
  cases hE : (jsTruthy gs.config.emitOnStateSetVal || em) with
  | true =>
    rw [storeLoop_cons_emit vs _ em gs b vb [] hcommitB hE, storeLoop_nil]
    refine ⟨rfl, ?_, ?_, ?_⟩
    · simp [GlobalState.read, hbne, readVal, emit_fst_stored, alookup_aset_self]
    · simp [GlobalState.read, hane, readVal, emit_fst_stored, alookup_aset_ne a b vb hab]
    · simp [List.filter, hba]
  | false =>
    rw [storeLoop_cons_noemit vs _ em gs b vb [] hcommitB hE, storeLoop_nil]
    refine ⟨rfl, ?_, ?_, rfl⟩
    · simp [GlobalState.read, hbne, readVal, alookup_aset_self]
    · simp [GlobalState.read, hane, readVal, alookup_aset_ne a b vb hab]

/-- Witness for C4 at a concrete instance: validators reject `a` and accept
`b`, `a` holds 1 beforehand; storing `{a: 5, b: 7}` keeps `a` at 1, sets
`b` to 7, raises nothing and emits nothing named `a`. -/
theorem store_partial_apply_witness :
    (gsW.store (EntryArg.value (JSVal.vObj [(keyA, JSVal.vNum 5), (keyB, JSVal.vNum 7)])) true).err
        = none
    ∧ (gsW.store (EntryArg.value (JSVal.vObj [(keyA, JSVal.vNum 5), (keyB, JSVal.vNum 7)]))
        true).gs.read keyB = JSVal.vNum 7
    ∧ (gsW.store (EntryArg.value (JSVal.vObj [(keyA, JSVal.vNum 5), (keyB, JSVal.vNum 7)]))
        true).gs.read keyA = gsW.read keyA
    ∧ ((gsW.store (EntryArg.value (JSVal.vObj [(keyA, JSVal.vNum 5), (keyB, JSVal.vNum 7)]))
        true).trace).filter (fun e => e.1 == keyA) = [] :=
  store_partial_apply gsW cW vsW keyA keyB (JSVal.vNum 5) (JSVal.vNum 7) faW fbW true
    rfl rfl (by decide) (by decide) (by decide) rfl rfl rfl rfl

/-- C5: emission policy of `store` for a resolved plain-object entry with
distinct keys.  First conjunct: with `emit = false` and a non-truthy
`emitOnStateSet` (the code tests `!!emitOnStateSet`), no event is emitted,
whatever the validators.  Second conjunct: when `emit` is true or
`emitOnStateSet` is truthy and a validators mapping is present, every
accepted key (validator allowed, or allowed by the `safeCall` default when
no validator is registered) fires exactly one event named after the key
with arguments `(previousValue, newValue, instance)`, the previous value
being `undefined` when the key was unset (`readVal`).  Third conjunct: on
every other path no key can be accepted — without a validators mapping the
call raises on the first entry before committing or emitting anything. -/
theorem store_emission_policy (gs : GlobalState) (entry : EntryArg) (em : Bool)
    (states : List (String × JSVal))
    (hres : resolveEntry gs entry = JSVal.vObj states)
    (hnd : (states.map Prod.fst).Nodup) :
    (em = false → jsTruthy gs.config.emitOnStateSetVal = false → (gs.store entry em).trace = [])
    ∧ (∀ vs, gs.config.validatorsVal = some vs →
        (jsTruthy gs.config.emitOnStateSetVal || em) = true →
        ∀ k v, (k, v) ∈ states →
          jsTruthy (safeCallVal (alookup k vs) (fun _ => JSVal.vBool true) v) = true →
          ((gs.store entry em).trace).filter (fun e => e.1 == k)
            = [(k, [Arg.val (readVal gs k), Arg.val v, Arg.inst])])
    ∧ (gs.config.validatorsVal = none → states ≠ [] →
        (gs.store entry em).err = some JSError.typeError
        ∧ (gs.store entry em).trace = [] ∧ (gs.store entry em).gs = gs) := by
  rw [store_eq_of_resolveObj gs entry em states hres]
  refine ⟨?_, ?_, ?_⟩
  · intro hem heoss
    exact storeLoop_trace_noemit _ _ _ (by simp [heoss, hem]) states gs
  · intro vs hvs hse k v hmem hall
    rw [hvs, storeLoop_trace_char vs _ em hse states gs hnd]
    have hsub : ((states.filter (fun kv =>
        jsTruthy (safeCallVal (alookup kv.1 vs) (fun _ => JSVal.vBool true) kv.2))).map
          Prod.fst).Sublist (states.map Prod.fst) :=
      List.Sublist.map Prod.fst (List.filter_sublist states)
    have hndf : (((states.filter (fun kv =>
        jsTruthy (safeCallVal (alookup kv.1 vs) (fun _ => JSVal.vBool true) kv.2))).map
          (fun kv => (kv.1, [Arg.val (readVal gs kv.1), Arg.val kv.2, Arg.inst]))).map
            Prod.fst).Nodup := by
      rw [List.map_map]
      exact List.Nodup.sublist hsub hnd
    exact filter_fst_singleton k [Arg.val (readVal gs k), Arg.val v, Arg.inst] _ hndf
      (List.mem_map_of_mem _ (List.mem_filter.mpr ⟨hmem, hall⟩))
  · intro hnone hne
    rw [hnone]
    cases states with
    | nil => exact absurd rfl hne
    | cons hd rest =>
      obtain ⟨k, v⟩ := hd
      exact ⟨rfl, rfl, rfl⟩

/-- Witness for C5 at a concrete instance whose validators mapping accepts
`count`: storing `{count: 1}` with `emit = true` fires exactly one `count`
event carrying `(undefined, 1, instance)`. -/
theorem store_emission_policy_witness :
    (true = false → jsTruthy gsE.config.emitOnStateSetVal = false →
      (gsE.store (EntryArg.value (JSVal.vObj [(keyCount, JSVal.vNum 1)])) true).trace = [])
    ∧ (∀ vs, gsE.config.validatorsVal = some vs →
        (jsTruthy gsE.config.emitOnStateSetVal || true) = true →
        ∀ k v, (k, v) ∈ [(keyCount, JSVal.vNum 1)] →
          jsTruthy (safeCallVal (alookup k vs) (fun _ => JSVal.vBool true) v) = true →
          ((gsE.store (EntryArg.value (JSVal.vObj [(keyCount, JSVal.vNum 1)])) true).trace).filter
            (fun e => e.1 == k)
            = [(k, [Arg.val (readVal gsE k), Arg.val v, Arg.inst])])
    ∧ (gsE.config.validatorsVal = none → [(keyCount, JSVal.vNum 1)] ≠ [] →
        (gsE.store (EntryArg.value (JSVal.vObj [(keyCount, JSVal.vNum 1)])) true).err
            = some JSError.typeError
        ∧ (gsE.store (EntryArg.value (JSVal.vObj [(keyCount, JSVal.vNum 1)])) true).trace = []
        ∧ (gsE.store (EntryArg.value (JSVal.vObj [(keyCount, JSVal.vNum 1)])) true).gs = gsE) :=
  store_emission_policy gsE (EntryArg.value (JSVal.vObj [(keyCount, JSVal.vNum 1)])) true
    [(keyCount, JSVal.vNum 1)] rfl (by decide)

/-- C6: the claim that registering a name twice leaves exactly one instance
created by the first registration fails on the code whenever the initial
state is non-empty: the fresh instance is populated through `store` before
being written into the registry, and with the fresh empty config the
`validators[k]` access raises, so `create({counter: {count: 0}})` registers
nothing on the first call — and, the name still being free, nothing on the
second call either: zero instances instead of one, and `getInstance`
falls back to the placeholder. -/
theorem create_twice_counter :
    (GlobalState.create (Registry.mk []) counterDefs).2 = some JSError.typeError
    ∧ ((GlobalState.create (GlobalState.create (Registry.mk []) counterDefs).1
        counterDefs).1).instances = []
    ∧ GlobalState.get
        (GlobalState.create (GlobalState.create (Registry.mk []) counterDefs).1 counterDefs).1
        nameCounter = GetResult.placeholder :=
  ⟨rfl, rfl, rfl⟩

/-- C7: listener stability under re-entrancy: when the event has a listener
array containing, among others, a listener that unsubscribes itself during
its own invocation (`off(ev, itself)`), the emit call runs to completion
(the model's dispatch is a total function) and invokes exactly the
listeners of the array captured when the emit began, in order — `off`
replaces the array in the event map without mutating the captured one, and
`forEach` fixes its range before the first callback, so mid-dispatch
additions and removals never affect the in-flight dispatch. -/
theorem emit_dispatch_stable (gs : GlobalState) (ev : String) (args : List Arg)
    (L : List Listener) (i : Nat) (hL : alookup ev gs.events = some L)
    (hmem : Listener.mk i (LBehavior.offSelf ev) ∈ L) :
    (gs.emit ev args).2 = L.map Listener.id ∧ i ∈ (gs.emit ev args).2 := by
  have hlog : (gs.emit ev args).2 = L.map Listener.id := by
    simp [GlobalState.emit, hL, runListeners_snd]
  refine ⟨hlog, ?_⟩
  rw [hlog]
  exact List.mem_map_of_mem Listener.id hmem

/-- Witness for C7: two listeners on `x`, the first removing itself during
dispatch; both are invoked, in order. -/
theorem emit_dispatch_stable_witness :
    (gsX.emit evX []).2
      = [Listener.mk 1 (LBehavior.offSelf evX), Listener.mk 2 LBehavior.noop].map Listener.id
    ∧ 1 ∈ (gsX.emit evX []).2 :=
  emit_dispatch_stable gsX evX []
    [Listener.mk 1 (LBehavior.offSelf evX), Listener.mk 2 LBehavior.noop] 1 rfl
    (List.mem_cons_self _ _)

/-- C8 counterexample: `setConfig(() => 'hello')` resolves to the string
`'hello'`, which is not a plain object, yet the call commits it as the
config and emits a `config` event — a function result is only checked for
truthiness — contradicting the claim that such a call leaves the config
unchanged and emits nothing. -/
theorem setConfig_truthy_primitive_cx :
    (GlobalState.init.setConfig (ConfigArg.func (fun _ => ConfigRet.rval (JSVal.vStr valHello)))
        false).1.config = ConfigState.cfgVal (JSVal.vStr valHello)
    ∧ (GlobalState.init.setConfig (ConfigArg.func (fun _ => ConfigRet.rval (JSVal.vStr valHello)))
        false).2 = [(evConfig, [Arg.val (JSVal.vStr valHello), Arg.inst])] :=
  ⟨rfl, rfl⟩

/-- C8 amended: the do-nothing guarantee holds exactly when the resolved
config value is falsy under the typeof dispatch — the argument is an array,
`null` or a non-object non-function primitive, or a function returning a
falsy value.  In all those cases `setConfig` leaves the instance unchanged
and emits nothing, for either value of `update` (the already-configured
early return has the same visible outcome). -/
theorem setConfig_falsy_resolved_noop (gs : GlobalState) (arg : ConfigArg) (u : Bool)
    (h : configResolvedFalsy gs arg) :
    gs.setConfig arg u = (gs, []) := by
  cases arg with
  | obj c => exact h.elim
  | arr => simp [GlobalState.setConfig, resolveConfig]
  | nullC => simp [GlobalState.setConfig, resolveConfig]
  | other => simp [GlobalState.setConfig, resolveConfig]
  | func f =>
    cases hf : f gs with
    | robj c =>
      rw [configResolvedFalsy, hf] at h
      exact h.elim
    | rval v =>
      rw [configResolvedFalsy, hf] at h
      simp [GlobalState.setConfig, resolveConfig, hf, h]

/-- Witness for the amended C8 theorem: passing an array does nothing. -/
theorem setConfig_falsy_resolved_noop_witness :
    GlobalState.init.setConfig ConfigArg.arr false = (GlobalState.init, []) :=
  setConfig_falsy_resolved_noop GlobalState.init ConfigArg.arr false trivial

/-- C9: `update(states)` assigns every entry into the stored mapping and
emits exactly one event named `<key>-update` carrying only the new value;
no validator is consulted and `emitOnStateSet` is irrelevant — the second
conjunct shows the stored result and the emissions are unchanged under any
replacement of the instance's config. -/
theorem update_bypasses_validation (gs : GlobalState) (states : List (String × JSVal))
    (hnd : (states.map Prod.fst).Nodup) :
    (∀ k v, (k, v) ∈ states →
      alookup k ((gs.update states).1).stored = some v
      ∧ ((gs.update states).2).filter (fun e => e.1 == k ++ updateSuffix)
          = [(k ++ updateSuffix, [Arg.val v])])
    ∧ (∀ cfg : ConfigState,
        (((GlobalState.mk gs.stored gs.events cfg).update states).1).stored
            = ((gs.update states).1).stored
        ∧ ((GlobalState.mk gs.stored gs.events cfg).update states).2 = (gs.update states).2) := by
  constructor
  · intro k v hmem
    constructor
    · rw [GlobalState.update, updateLoop_stored]
      exact alookup_foldl_mem k v states gs.stored hnd hmem
    · rw [GlobalState.update, updateLoop_trace]
      have hinj : Function.Injective (fun s : String => s ++ updateSuffix) :=
        fun x y hxy => string_append_right_inj updateSuffix x y hxy
      have h2 := List.Nodup.map hinj hnd
      rw [List.map_map] at h2
      have hndt : ((states.map
          (fun kv => (kv.1 ++ updateSuffix, [Arg.val kv.2]))).map Prod.fst).Nodup := by
        rw [List.map_map]
        exact h2
      exact filter_fst_singleton (k ++ updateSuffix) [Arg.val v] _ hndt
        (List.mem_map_of_mem _ hmem)
  · intro cfg
    constructor
    · simp [GlobalState.update, updateLoop_stored]
    · simp [GlobalState.update, updateLoop_trace]

/-- Witness for C9 on a fresh instance: `update({count: 3})` stores 3 at
`count` and emits exactly one `count-update` event with 3, and the result
does not depend on the config. -/
theorem update_bypasses_validation_witness :
    (∀ k v, (k, v) ∈ [(keyCount, JSVal.vNum 3)] →
      alookup k ((GlobalState.init.update [(keyCount, JSVal.vNum 3)]).1).stored = some v
      ∧ ((GlobalState.init.update [(keyCount, JSVal.vNum 3)]).2).filter
          (fun e => e.1 == k ++ updateSuffix) = [(k ++ updateSuffix, [Arg.val v])])
    ∧ (∀ cfg : ConfigState,
        (((GlobalState.mk GlobalState.init.stored GlobalState.init.events cfg).update
            [(keyCount, JSVal.vNum 3)]).1).stored
            = ((GlobalState.init.update [(keyCount, JSVal.vNum 3)]).1).stored
        ∧ ((GlobalState.mk GlobalState.init.stored GlobalState.init.events cfg).update
            [(keyCount, JSVal.vNum 3)]).2
            = (GlobalState.init.update [(keyCount, JSVal.vNum 3)]).2) :=
  update_bypasses_validation GlobalState.init [(keyCount, JSVal.vNum 3)] (by decide)

/-- C10: the module-load side effect attempted at the bottom of
GlobalState.js: `aiDesigner` (empty initial state) is registered, but
storing `gui`'s non-empty initial state raises the `validators[k]`
TypeError on the fresh unconfigured instance, so the import itself fails
and only `aiDesigner` is registered — there is no successful import after
which both names are present. -/
theorem module_load_crashes :
    moduleLoad.2 = some JSError.typeError
    ∧ (moduleLoad.1).instances.map Prod.fst = [nameAiDesigner] :=
  ⟨rfl, rfl⟩

end ReactUtils
